import Mathlib

/-!
Verification of the AES-GCM symmetric system of seal-kit
(`src/symmetric/systems/aes_gcm.rs`).

Bytes are modelled as `List Nat` with every element below 256; Rust strings
are modelled as `List Char`.  Randomness (`OsRng.try_fill_bytes`) is modelled
by passing the filled bytes — or the randomness failure — as an explicit
`Except String (List Nat)` argument.  External collaborators that are not
part of this repository (the `base64` crate, the `aes-gcm` AEAD crate, the
error enum of `crate::common::errors`) are modelled from the specification;
each such definition carries a doc comment saying so.
-/

namespace SealKit

/-- Modelled from the spec: the error taxonomy of §7 (`crate::common::errors::Error`
is not under `src/`; the taxonomy lists `GenerationFailed`, `EncryptionFailed`,
`DecryptionFailed`, `KeyImportFailed`, `KeyExportFailed`, `KeyNotFound`,
`KeyExpired`, `StorageSealFailed`, `StorageOpenFailed` and the catch-all
`Operation`).  Each variant carries the message string the code attaches. -/
inductive Error where
  | GenerationFailed (msg : String)
  | EncryptionFailed (msg : String)
  | DecryptionFailed (msg : String)
  | KeyImportFailed (msg : String)
  | KeyExportFailed (msg : String)
  | KeyNotFound (msg : String)
  | KeyExpired (msg : String)
  | StorageSealFailed (msg : String)
  | StorageOpenFailed (msg : String)
  | Operation (msg : String)
deriving DecidableEq, Repr

/-- Byte strings: each element is intended to lie below 256. -/
abbrev Bytes := List Nat

/-- `const KEY_SIZE: usize = 32` — AES-256 key size in bytes. -/
def KEY_SIZE : Nat := 32

/-- `const NONCE_SIZE: usize = 12` — standard GCM nonce size in bytes. -/
def NONCE_SIZE : Nat := 12

/-- Outcome of a Rust function that may return `Ok`, return `Err`, or panic
(`Key::<Aes256Gcm>::from_slice` panics when the slice length is not 32). -/
inductive Outcome (α : Type) where
  | ok (v : α)
  | err (e : Error)
  | panicked
deriving DecidableEq, Repr

/-- Modelled from the spec: the standard base64 alphabet of the external
`base64` crate (`general_purpose::STANDARD`), index to character. -/
def b64Char (n : Nat) : Char :=
  if n < 26 then Char.ofNat (65 + n)
  else if n < 52 then Char.ofNat (97 + (n - 26))
  else if n < 62 then Char.ofNat (48 + (n - 52))
  else if n = 62 then '+'
  else '/'

/-- Modelled from the spec: inverse of the standard base64 alphabet; `none`
for characters outside the alphabet (including the pad `'='`). -/
def b64CharVal (c : Char) : Option Nat :=
  if 'A' ≤ c ∧ c ≤ 'Z' then some (c.toNat - 65)
  else if 'a' ≤ c ∧ c ≤ 'z' then some (c.toNat - 97 + 26)
  else if '0' ≤ c ∧ c ≤ '9' then some (c.toNat - 48 + 52)
  else if c = '+' then some 62
  else if c = '/' then some 63
  else none

/-- Modelled from the spec: `general_purpose::STANDARD.encode` of the external
`base64` crate — canonical base64 with `'='` padding. -/
def b64Encode : Bytes → List Char
  | [] => []
  | [a] => [b64Char (a / 4), b64Char (a % 4 * 16), '=', '=']
  | [a, b] => [b64Char (a / 4), b64Char (a % 4 * 16 + b / 16), b64Char (b % 16 * 4), '=']
  | a :: b :: c :: rest =>
    b64Char (a / 4) :: b64Char (a % 4 * 16 + b / 16) ::
      b64Char (b % 16 * 4 + c / 64) :: b64Char (c % 64) :: b64Encode rest

/-- Modelled from the spec: `general_purpose::STANDARD.decode` of the external
`base64` crate — requires canonical padding, rejects characters outside the
alphabet, rejects non-zero trailing bits, rejects lengths not divisible by 4. -/
def b64Decode : List Char → Except String Bytes
  | [] => .ok []
  | c1 :: c2 :: c3 :: c4 :: rest =>
    match b64CharVal c1, b64CharVal c2 with
    | some n1, some n2 =>
      if c3 = '=' then
        if c4 = '=' ∧ rest = [] ∧ n2 % 16 = 0 then .ok [n1 * 4 + n2 / 16]
        else .error "Invalid padding"
      else
        match b64CharVal c3 with
        | some n3 =>
          if c4 = '=' then
            if rest = [] ∧ n3 % 4 = 0 then
              .ok [n1 * 4 + n2 / 16, n2 % 16 * 16 + n3 / 4]
            else .error "Invalid padding"
          else
            match b64CharVal c4 with
            | some n4 =>
              match b64Decode rest with
              | .ok t => .ok ((n1 * 4 + n2 / 16) :: (n2 % 16 * 16 + n3 / 4) :: (n3 % 4 * 64 + n4) :: t)
              | .error e => .error e
            | none => .error "Invalid symbol"
        | none => .error "Invalid symbol"
    | _, _ => .error "Invalid symbol"
  | _ => .error "Invalid input length"

/-- Unary length marker used by the ideal AEAD model below: `n` ones followed
by a zero.  Keeps every byte of the model ciphertext below 256 while making
the associated-data boundary unambiguous. -/
def unaryLen (n : Nat) : Bytes := List.replicate n 1 ++ [0]

/-- Modelled from the spec: the authentication header of the ideal AEAD.  The
external `aes-gcm` crate is consumed as a black box; the spec promises AEAD
semantics (perfect round-trip under the same key, nonce and associated data,
and authentication failure otherwise), which this ideal model realises by
recording key, nonce and associated data in the ciphertext. -/
def aeadHeader (key nonce aad : Bytes) : Bytes :=
  key ++ (nonce ++ (unaryLen aad.length ++ aad))

/-- Modelled from the spec: `Aes256Gcm::encrypt` (ideal AEAD) — the ciphertext
is the authentication header followed by the message. -/
def aeadEncrypt (key nonce msg aad : Bytes) : Bytes :=
  aeadHeader key nonce aad ++ msg

/-- Modelled from the spec: `Aes256Gcm::decrypt` (ideal AEAD) — succeeds
exactly when the ciphertext starts with the authentication header of the
supplied key, nonce and associated data. -/
def aeadDecrypt (key nonce ct aad : Bytes) : Option Bytes :=
  let h := aeadHeader key nonce aad
  if ct.take h.length = h then some (ct.drop h.length) else none

namespace AesGcmSystem

/-- `AesGcmSystem::generate_key`: fill `KEY_SIZE` bytes from `OsRng`; a
randomness failure is mapped to `Error::Operation`.  The randomness source is
modelled by the explicit `rng` argument holding the filled bytes. -/
def generate_key (rng : Except String Bytes) : Except Error Bytes :=
  match rng with
  | .error e => .error (.Operation e)
  | .ok key_bytes => .ok key_bytes

/-- `AesGcmSystem::encrypt`: build the cipher from the key
(`Key::<Aes256Gcm>::from_slice` panics unless the key has exactly `KEY_SIZE`
bytes), fill a `NONCE_SIZE`-byte nonce from `OsRng` (modelled by the `rng`
argument; a randomness failure maps to `Error::Operation`), default the
associated data to the empty byte string, AEAD-encrypt, and return the
base64 text encoding of nonce ∥ AEAD-ciphertext. -/
def encrypt (key : Bytes) (plaintext : Bytes) (additional_data : Option Bytes)
    (rng : Except String Bytes) : Outcome (List Char) :=
  if key.length = KEY_SIZE then
    match rng with
    | .error e => .err (.Operation e)
    | .ok nonce =>
      let aad := additional_data.getD []
      let ciphertext := aeadEncrypt key nonce plaintext aad
      .ok (b64Encode (nonce ++ ciphertext))
  else .panicked

/-- `AesGcmSystem::decrypt`, parameterised by the AEAD decryption primitive so
that "the primitive is never invoked on malformed input" is expressible: build
the cipher from the key (panics unless the key has exactly `KEY_SIZE` bytes),
base64-decode the input (failure maps to `DecryptionFailed`), reject decoded
data shorter than `NONCE_SIZE` (`DecryptionFailed`), split the decoded data
into nonce and ciphertext at `NONCE_SIZE`, default the associated data to the
empty byte string, and AEAD-decrypt (failure maps to `DecryptionFailed`). -/
def decryptWith (aeadDec : Bytes → Bytes → Bytes → Bytes → Option Bytes)
    (key : Bytes) (ciphertext_b64 : List Char) (additional_data : Option Bytes) :
    Outcome Bytes :=
  if key.length = KEY_SIZE then
    match b64Decode ciphertext_b64 with
    | .error e => .err (.DecryptionFailed ("Base64 decoding failed: " ++ e))
    | .ok decoded_data =>
      if decoded_data.length < NONCE_SIZE then
        .err (.DecryptionFailed "Ciphertext is too short to contain a nonce")
      else
        let nonce_bytes := decoded_data.take NONCE_SIZE
        let ciphertext := decoded_data.drop NONCE_SIZE
        let aad := additional_data.getD []
        match aeadDec key nonce_bytes ciphertext aad with
        | some plaintext => .ok plaintext
        | none => .err (.DecryptionFailed "aead::Error")
  else .panicked

/-- `AesGcmSystem::decrypt` with the (modelled) AEAD primitive plugged in. -/
def decrypt (key : Bytes) (ciphertext_b64 : List Char)
    (additional_data : Option Bytes) : Outcome Bytes :=
  decryptWith aeadDecrypt key ciphertext_b64 additional_data

/-- `AesGcmSystem::export_key`: base64-encode the key bytes; never fails. -/
def export_key (key : Bytes) : Except Error (List Char) :=
  .ok (b64Encode key)

/-- `AesGcmSystem::import_key`: base64-decode (failure maps to
`KeyImportFailed`), then require exactly `KEY_SIZE` bytes (otherwise
`KeyImportFailed`). -/
def import_key (key_data : List Char) : Except Error Bytes :=
  match b64Decode key_data with
  | .error e => .error (.KeyImportFailed ("Base64 decoding failed: " ++ e))
  | .ok key_bytes =>
    if key_bytes.length ≠ KEY_SIZE then
      .error (.KeyImportFailed ("Invalid key size: expected 32, got " ++ toString key_bytes.length))
    else .ok key_bytes

end AesGcmSystem

/-- Decides whether a key-generation result is a `GenerationFailed` error. -/
def isGenerationFailedErr : Except Error Bytes → Bool
  | .error (.GenerationFailed _) => true
  | _ => false

/-- Decides whether a decryption outcome is an `Err` return. -/
def isErrOutcome : Outcome Bytes → Bool
  | .err _ => true
  | _ => false

/-- Decides whether a decryption outcome is an ordinary return
(`Ok` or `Err`) rather than a panic. -/
def isOkOrErrOutcome : Outcome Bytes → Bool
  | .panicked => false
  | _ => true

theorem b64CharVal_b64Char : ∀ n < 64, b64CharVal (b64Char n) = some n := by decide

theorem b64Char_ne_pad : ∀ n < 64, b64Char n ≠ '=' := by decide

/-- Canonical base64 decoding is a left inverse of encoding on byte strings. -/
theorem b64Decode_b64Encode : ∀ l : Bytes, (∀ x ∈ l, x < 256) →
    b64Decode (b64Encode l) = .ok l := by
  intro l
  induction l using b64Encode.induct with
  | case1 => intro _; rfl
  | case2 a =>
    intro h
    have ha : a < 256 := h a (by simp)
    have h16 : a % 4 * 16 % 16 = 0 := by omega
    rw [b64Encode, b64Decode,
      b64CharVal_b64Char (a / 4) (by omega),
      b64CharVal_b64Char (a % 4 * 16) (by omega)]
    simp [h16]
    omega
  | case3 a b =>
    intro h
    have ha : a < 256 := h a (by simp)
    have hb : b < 256 := h b (by simp)
    have h4 : b % 16 * 4 % 4 = 0 := by omega
    rw [b64Encode, b64Decode,
      b64CharVal_b64Char (a / 4) (by omega),
      b64CharVal_b64Char (a % 4 * 16 + b / 16) (by omega)]
    simp only [if_neg (b64Char_ne_pad (b % 16 * 4) (by omega))]
    rw [b64CharVal_b64Char (b % 16 * 4) (by omega)]
    simp [h4]
    omega
  | case4 a b c rest ih =>
    intro h
    have ha : a < 256 := h a (by simp)
    have hb : b < 256 := h b (by simp)
    have hc : c < 256 := h c (by simp)
    have hrest : ∀ x ∈ rest, x < 256 := fun x hx => h x (by simp [hx])
    rw [b64Encode, b64Decode,
      b64CharVal_b64Char (a / 4) (by omega),
      b64CharVal_b64Char (a % 4 * 16 + b / 16) (by omega)]
    simp only [if_neg (b64Char_ne_pad (b % 16 * 4 + c / 64) (by omega))]
    rw [b64CharVal_b64Char (b % 16 * 4 + c / 64) (by omega)]
    simp only [if_neg (b64Char_ne_pad (c % 64) (by omega))]
    rw [b64CharVal_b64Char (c % 64) (by omega), ih hrest]
    simp
    omega

/-- The ideal AEAD round-trips: decrypting an encryption with the same key,
nonce and associated data recovers the message. -/
theorem aeadDecrypt_aeadEncrypt (key nonce msg aad : Bytes) :
    aeadDecrypt key nonce (aeadEncrypt key nonce msg aad) aad = some msg := by
  unfold aeadDecrypt aeadEncrypt
  simp [List.take_left, List.drop_left]

/-- Every byte of the ideal AEAD ciphertext is below 256 whenever every byte
of the key, nonce, message and associated data is. -/
theorem aeadEncrypt_bytes_lt (key nonce msg aad : Bytes)
    (hk : ∀ x ∈ key, x < 256) (hn : ∀ x ∈ nonce, x < 256)
    (hm : ∀ x ∈ msg, x < 256) (ha : ∀ x ∈ aad, x < 256) :
    ∀ x ∈ aeadEncrypt key nonce msg aad, x < 256 := by
  intro x hx
  simp only [aeadEncrypt, aeadHeader, unaryLen, List.append_assoc,
    List.mem_append, List.mem_replicate, List.mem_singleton] at hx
  obtain h | h | ⟨-, h⟩ | h | h | h := hx
  · exact hk x h
  · exact hn x h
  · omega
  · omega
  · exact ha x h
  · exact hm x h

/-- Decrypting an ideal-AEAD encryption under a different key of the same
length fails. -/
theorem aeadDecrypt_wrong_key (k1 k2 nonce msg aad : Bytes)
    (h1 : k1.length = KEY_SIZE) (h2 : k2.length = KEY_SIZE) (hne : k1 ≠ k2) :
    aeadDecrypt k2 nonce (aeadEncrypt k1 nonce msg aad) aad = none := by
  unfold aeadDecrypt aeadEncrypt
  rw [if_neg]
  intro hcontra
  have hlen : (aeadHeader k2 nonce aad).length = (aeadHeader k1 nonce aad).length := by
    simp [aeadHeader, h1, h2]
  rw [hlen, List.take_left] at hcontra
  simp only [aeadHeader] at hcontra
  have hk : k1 = k2 := by
    apply List.append_inj_left hcontra
    omega
  exact hne hk

/-- Evaluation of `decrypt` on the base64 encoding of `nonce ∥ rest` for a
valid key: the blob decodes, passes the length guard, splits back into
`nonce` and `rest`, and hands them to the AEAD primitive. -/
theorem decrypt_b64_eval (key nonce rest : Bytes) (aad? : Option Bytes)
    (hkl : key.length = KEY_SIZE) (hnl : nonce.length = NONCE_SIZE)
    (hall : ∀ x ∈ nonce ++ rest, x < 256) :
    AesGcmSystem.decrypt key (b64Encode (nonce ++ rest)) aad? =
      match aeadDecrypt key nonce rest (aad?.getD []) with
      | some plaintext => .ok plaintext
      | none => .err (.DecryptionFailed "aead::Error") := by
  have hlen : ¬(nonce ++ rest).length < NONCE_SIZE := by simp [hnl]
  have ht : (nonce ++ rest).take NONCE_SIZE = nonce := by
    rw [← hnl]; exact List.take_left _ _
  have hd : (nonce ++ rest).drop NONCE_SIZE = rest := by
    rw [← hnl]; exact List.drop_left _ _
  unfold AesGcmSystem.decrypt AesGcmSystem.decryptWith
  rw [if_pos hkl, b64Decode_b64Encode _ hall]
  simp only [if_neg hlen, ht, hd]

/-- Core round-trip: decrypting the encoded blob `nonce ∥ aeadEncrypt …`
under the same key and associated data recovers the plaintext. -/
theorem decrypt_encode_core (key nonce pt : Bytes) (aad? : Option Bytes)
    (hkl : key.length = KEY_SIZE) (hnl : nonce.length = NONCE_SIZE)
    (hk : ∀ x ∈ key, x < 256) (hn : ∀ x ∈ nonce, x < 256)
    (hp : ∀ x ∈ pt, x < 256) (ha : ∀ x ∈ aad?.getD [], x < 256) :
    AesGcmSystem.decrypt key
      (b64Encode (nonce ++ aeadEncrypt key nonce pt (aad?.getD []))) aad? =
      .ok pt := by
  have hct := aeadEncrypt_bytes_lt key nonce pt (aad?.getD []) hk hn hp ha
  have hall : ∀ x ∈ nonce ++ aeadEncrypt key nonce pt (aad?.getD []), x < 256 := by
    intro x hx
    rcases List.mem_append.1 hx with h | h
    · exact hn x h
    · exact hct x h
  rw [decrypt_b64_eval key nonce _ aad? hkl hnl hall, aeadDecrypt_aeadEncrypt]

/-- A successful `encrypt` forces a `KEY_SIZE` key and fixes the output blob:
the base64 encoding of the nonce followed by the AEAD ciphertext. -/
theorem encrypt_ok_inv (key pt : Bytes) (aad? : Option Bytes) (nonce : Bytes)
    (c : List Char) (henc : AesGcmSystem.encrypt key pt aad? (.ok nonce) = .ok c) :
    key.length = KEY_SIZE ∧
      c = b64Encode (nonce ++ aeadEncrypt key nonce pt (aad?.getD [])) := by
  by_cases hkl : key.length = KEY_SIZE
  · refine ⟨hkl, ?_⟩
    unfold AesGcmSystem.encrypt at henc
    rw [if_pos hkl] at henc
    simpa using henc.symm
  · unfold AesGcmSystem.encrypt at henc
    rw [if_neg hkl] at henc
    exact absurd henc (by simp)

/-- C1: for every valid AES-GCM key, every plaintext (including the empty
one) and every associated data (`none` or any byte string), decrypting the
output of `encrypt` with the same key and associated data returns exactly the
plaintext.  The nonce argument models the bytes `OsRng` filled. -/
theorem claim1_encrypt_decrypt_roundtrip (key pt nonce : Bytes)
    (aad? : Option Bytes) (c : List Char)
    (hk : ∀ x ∈ key, x < 256)
    (hnl : nonce.length = NONCE_SIZE) (hn : ∀ x ∈ nonce, x < 256)
    (hp : ∀ x ∈ pt, x < 256) (ha : ∀ x ∈ aad?.getD [], x < 256)
    (henc : AesGcmSystem.encrypt key pt aad? (.ok nonce) = .ok c) :
    AesGcmSystem.decrypt key c aad? = .ok pt := by
  obtain ⟨hkl, hc⟩ := encrypt_ok_inv key pt aad? nonce c henc
  rw [hc]
  exact decrypt_encode_core key nonce pt aad? hkl hnl hk hn hp ha

theorem claim1_witness :
    AesGcmSystem.decrypt (List.replicate 32 0)
      (b64Encode (List.replicate 12 0 ++
        aeadEncrypt (List.replicate 32 0) (List.replicate 12 0) [104, 105] []))
      none = .ok [104, 105] :=
  claim1_encrypt_decrypt_roundtrip (List.replicate 32 0) [104, 105]
    (List.replicate 12 0) none _ (by decide) (by decide) (by decide)
    (by decide) (by decide) rfl

/-- C2: for every AES-GCM key (32 bytes, as produced by `generate_key` or
`import_key`), exporting and re-importing succeeds and is lossless. -/
theorem claim2_export_import_roundtrip (key : Bytes)
    (hkl : key.length = KEY_SIZE) (hk : ∀ x ∈ key, x < 256) :
    ∃ s, AesGcmSystem.export_key key = .ok s ∧
      AesGcmSystem.import_key s = .ok key := by
  refine ⟨b64Encode key, rfl, ?_⟩
  unfold AesGcmSystem.import_key
  rw [b64Decode_b64Encode key hk]
  simp [hkl]

theorem claim2_witness :
    ∃ s, AesGcmSystem.export_key (List.replicate 32 7) = .ok s ∧
      AesGcmSystem.import_key s = .ok (List.replicate 32 7) :=
  claim2_export_import_roundtrip (List.replicate 32 7) (by decide) (by decide)

/-- C3: every blob produced by `encrypt` is the base64 text encoding of the
freshly drawn 12-byte nonce (modelled as the `rng` argument) followed by the
AEAD ciphertext; `decrypt` parses a decoded blob by taking the first
`NONCE_SIZE` bytes as the nonce and the rest as the AEAD ciphertext. -/
theorem claim3_blob_layout (key pt nonce : Bytes) (aad? : Option Bytes) :
    (∀ c, AesGcmSystem.encrypt key pt aad? (.ok nonce) = .ok c →
      c = b64Encode (nonce ++ aeadEncrypt key nonce pt (aad?.getD []))) ∧
    (∀ s d, key.length = KEY_SIZE → b64Decode s = .ok d →
      ¬d.length < NONCE_SIZE →
      AesGcmSystem.decrypt key s aad? =
        match aeadDecrypt key (d.take NONCE_SIZE) (d.drop NONCE_SIZE)
            (aad?.getD []) with
        | some plaintext => .ok plaintext
        | none => .err (.DecryptionFailed "aead::Error")) := by
  constructor
  · intro c henc
    exact (encrypt_ok_inv key pt aad? nonce c henc).2
  · intro s d hkl hdec hlen
    unfold AesGcmSystem.decrypt AesGcmSystem.decryptWith
    rw [if_pos hkl, hdec]
    simp only [if_neg hlen]

theorem claim3_witness :
    AesGcmSystem.decrypt (List.replicate 32 0)
      (b64Encode (List.replicate 12 0 ++
        aeadEncrypt (List.replicate 32 0) (List.replicate 12 0) [1] []))
      none = .ok [1] :=
  ((claim3_blob_layout (List.replicate 32 0) [1] (List.replicate 12 0)
      none).2
    (b64Encode (List.replicate 12 0 ++
      aeadEncrypt (List.replicate 32 0) (List.replicate 12 0) [1] []))
    (List.replicate 12 0 ++
      aeadEncrypt (List.replicate 32 0) (List.replicate 12 0) [1] [])
    (by decide) (by rfl) (by decide)).trans (by rfl)

/-- C4 (amended): every error return of `decrypt` — authentication failure,
malformed base64, too-short input, wrong key — carries the `DecryptionFailed`
error kind; the attached message content, however, differs between the cases,
so the cases are not literally indistinguishable. -/
theorem claim4_decrypt_error_kind (key : Bytes) (s : List Char)
    (aad? : Option Bytes) (e : Error)
    (h : AesGcmSystem.decrypt key s aad? = .err e) :
    ∃ m, e = .DecryptionFailed m := by
  unfold AesGcmSystem.decrypt AesGcmSystem.decryptWith at h
  by_cases hkl : key.length = KEY_SIZE
  · rw [if_pos hkl] at h
    rcases hdec : b64Decode s with e' | d
    · simp only [hdec, Outcome.err.injEq] at h
      exact ⟨_, h.symm⟩
    · simp only [hdec] at h
      by_cases hlen : d.length < NONCE_SIZE
      · rw [if_pos hlen] at h
        simp only [Outcome.err.injEq] at h
        exact ⟨_, h.symm⟩
      · rw [if_neg hlen] at h
        rcases haead : aeadDecrypt key (d.take NONCE_SIZE) (d.drop NONCE_SIZE)
            (aad?.getD []) with - | pt
        · simp only [haead, Outcome.err.injEq] at h
          exact ⟨_, h.symm⟩
        · simp only [haead] at h
          exact absurd h (by simp)
  · rw [if_neg hkl] at h
    exact absurd h (by simp)

theorem claim4_witness :
    ∃ m, Error.DecryptionFailed "Ciphertext is too short to contain a nonce" =
      .DecryptionFailed m :=
  claim4_decrypt_error_kind (List.replicate 32 0) (b64Encode [0, 0]) none _ rfl

/-- C4 counterexample: two of the merged failure cases return `DecryptionFailed`
with different message strings — malformed base64 yields
"Base64 decoding failed: …" while a decoded blob shorter than the nonce yields
"Ciphertext is too short to contain a nonce" — so the error content does
distinguish the cases, contrary to the claim. -/
theorem claim4_counterexample :
    AesGcmSystem.decrypt (List.replicate 32 0) ['!', '!', '!', '!'] none =
      .err (.DecryptionFailed "Base64 decoding failed: Invalid symbol") ∧
    AesGcmSystem.decrypt (List.replicate 32 0) (b64Encode [0, 0]) none =
      .err (.DecryptionFailed "Ciphertext is too short to contain a nonce") ∧
    Error.DecryptionFailed "Base64 decoding failed: Invalid symbol" ≠
      Error.DecryptionFailed "Ciphertext is too short to contain a nonce" :=
  ⟨rfl, rfl, by decide⟩

/-- C5 (amended): when the randomness source errs during key generation,
`generate_key` fails with the catch-all `Operation` error kind carrying the
randomness error's message — not with `GenerationFailed`. -/
theorem claim5_generate_key_rng_failure (e : String) :
    AesGcmSystem.generate_key (.error e) = .error (.Operation e) := rfl

/-- C5 counterexample: on a randomness failure `generate_key` returns the
`Operation` error kind, which is not the `GenerationFailed` kind the claim
names. -/
theorem claim5_counterexample :
    AesGcmSystem.generate_key (.error "rng failure") =
      .error (.Operation "rng failure") ∧
    isGenerationFailedErr (AesGcmSystem.generate_key (.error "rng failure")) =
      false :=
  ⟨rfl, rfl⟩

/-- C6: `import_key` succeeds exactly on well-formed base64 input decoding to
exactly `KEY_SIZE` (32) bytes; every failure carries the `KeyImportFailed`
error kind; and on a successful decode of 32 bytes it returns those bytes. -/
theorem claim6_import_key_characterisation (s : List Char) :
    ((∃ k, AesGcmSystem.import_key s = .ok k) ↔
      (∃ b, b64Decode s = .ok b ∧ b.length = KEY_SIZE)) ∧
    (∀ e, AesGcmSystem.import_key s = .error e →
      ∃ m, e = .KeyImportFailed m) ∧
    (∀ b, b64Decode s = .ok b → b.length = KEY_SIZE →
      AesGcmSystem.import_key s = .ok b) := by
  rcases hdec : b64Decode s with e' | b
  · refine ⟨?_, ?_, ?_⟩
    · constructor
      · rintro ⟨k, hk⟩
        unfold AesGcmSystem.import_key at hk
        simp only [hdec] at hk
        exact absurd hk (by simp)
      · rintro ⟨b, hb, -⟩
        exact absurd hb (by simp)
    · intro e he
      unfold AesGcmSystem.import_key at he
      simp only [hdec, Except.error.injEq] at he
      exact ⟨_, he.symm⟩
    · intro b hb
      exact absurd hb (by simp)
  · by_cases hl : b.length = KEY_SIZE
    · have himp : AesGcmSystem.import_key s = .ok b := by
        unfold AesGcmSystem.import_key
        simp only [hdec]
        rw [if_neg (by simp [hl])]
      refine ⟨?_, ?_, ?_⟩
      · exact iff_of_true ⟨b, himp⟩ ⟨b, rfl, hl⟩
      · intro e he
        rw [himp] at he
        exact absurd he (by simp)
      · intro b' hb' hlb'
        obtain rfl := Except.ok.inj hb'
        exact himp
    · have himp : AesGcmSystem.import_key s =
          .error (.KeyImportFailed
            ("Invalid key size: expected 32, got " ++ toString b.length)) := by
        unfold AesGcmSystem.import_key
        simp only [hdec]
        rw [if_pos hl]
      refine ⟨?_, ?_, ?_⟩
      · constructor
        · rintro ⟨k, hk⟩
          rw [himp] at hk
          exact absurd hk (by simp)
        · rintro ⟨b', hb', hlb'⟩
          obtain rfl := Except.ok.inj hb'
          exact absurd hlb' hl
      · intro e he
        rw [himp] at he
        exact ⟨_, (Except.error.inj he).symm⟩
      · intro b' hb' hlb'
        obtain rfl := Except.ok.inj hb'
        exact absurd hlb' hl

theorem claim6_witness :
    AesGcmSystem.import_key (b64Encode (List.replicate 32 0)) =
      .ok (List.replicate 32 0) :=
  (claim6_import_key_characterisation (b64Encode (List.replicate 32 0))).2.2
    (List.replicate 32 0) (by rfl) (by rfl)

/-- C7 (amended): for every key of exactly `KEY_SIZE` bytes and every
malformed input (invalid base64, or decoded data shorter than the
`NONCE_SIZE`-byte nonce), `decrypt` returns a `DecryptionFailed` error, and
the result does not depend on the AEAD decryption primitive — that primitive
is never invoked on malformed input.  (For keys of other lengths the code
panics in `Key::from_slice` instead of returning a failure, which is what the
counterexample records.) -/
theorem claim7_malformed_fails_before_aead (key : Bytes) (s : List Char)
    (aad? : Option Bytes) (hkl : key.length = KEY_SIZE)
    (hmal : (∃ e, b64Decode s = .error e) ∨
      (∀ d, b64Decode s = .ok d → d.length < NONCE_SIZE)) :
    (∃ m, AesGcmSystem.decrypt key s aad? = .err (.DecryptionFailed m)) ∧
    (∀ f g, AesGcmSystem.decryptWith f key s aad? =
      AesGcmSystem.decryptWith g key s aad?) := by
  rcases hdec : b64Decode s with e' | d
  · constructor
    · refine ⟨"Base64 decoding failed: " ++ e', ?_⟩
      unfold AesGcmSystem.decrypt AesGcmSystem.decryptWith
      rw [if_pos hkl]
      simp only [hdec]
    · intro f g
      unfold AesGcmSystem.decryptWith
      simp only [if_pos hkl, hdec]
  · have hlen : d.length < NONCE_SIZE := by
      rcases hmal with ⟨e, he⟩ | hshort
      · rw [hdec] at he
        exact absurd he (by simp)
      · exact hshort d hdec
    constructor
    · refine ⟨"Ciphertext is too short to contain a nonce", ?_⟩
      unfold AesGcmSystem.decrypt AesGcmSystem.decryptWith
      rw [if_pos hkl]
      simp only [hdec, if_pos hlen]
    · intro f g
      unfold AesGcmSystem.decryptWith
      simp only [if_pos hkl, hdec, if_pos hlen]

theorem claim7_witness :
    ∃ m, AesGcmSystem.decrypt (List.replicate 32 0) ['!'] none =
      .err (.DecryptionFailed m) :=
  (claim7_malformed_fails_before_aead (List.replicate 32 0) ['!'] none
    (by decide) (Or.inl ⟨"Invalid input length", rfl⟩)).1

/-- C7 counterexample: with a key that is not 32 bytes long (reachable through
the derived `Deserialize` of `AesGcmKey`), `decrypt` on malformed input does
not return a failure — `Key::<Aes256Gcm>::from_slice` panics first. -/
theorem claim7_counterexample :
    AesGcmSystem.decrypt [0] ['!'] none = .panicked ∧
    isErrOutcome (AesGcmSystem.decrypt [0] ['!'] none) = false :=
  ⟨rfl, rfl⟩

/-- C8: a ciphertext produced by `encrypt` under one key fails with
`DecryptionFailed` when decrypted under any different (valid) key with the
same associated data. -/
theorem claim8_wrong_key_decrypt_fails (k1 k2 pt nonce : Bytes)
    (aad? : Option Bytes) (c : List Char)
    (h2 : k2.length = KEY_SIZE) (hne : k1 ≠ k2)
    (hk1 : ∀ x ∈ k1, x < 256) (hnl : nonce.length = NONCE_SIZE)
    (hn : ∀ x ∈ nonce, x < 256) (hp : ∀ x ∈ pt, x < 256)
    (ha : ∀ x ∈ aad?.getD [], x < 256)
    (henc : AesGcmSystem.encrypt k1 pt aad? (.ok nonce) = .ok c) :
    AesGcmSystem.decrypt k2 c aad? = .err (.DecryptionFailed "aead::Error") := by
  obtain ⟨h1, hc⟩ := encrypt_ok_inv k1 pt aad? nonce c henc
  subst hc
  have hct := aeadEncrypt_bytes_lt k1 nonce pt (aad?.getD []) hk1 hn hp ha
  have hall : ∀ x ∈ nonce ++ aeadEncrypt k1 nonce pt (aad?.getD []), x < 256 := by
    intro x hx
    rcases List.mem_append.1 hx with h | h
    · exact hn x h
    · exact hct x h
  rw [decrypt_b64_eval k2 nonce _ aad? h2 hnl hall,
    aeadDecrypt_wrong_key k1 k2 nonce pt (aad?.getD []) h1 h2 hne]

theorem claim8_witness :
    AesGcmSystem.decrypt (1 :: List.replicate 31 0)
      (b64Encode (List.replicate 12 0 ++
        aeadEncrypt (List.replicate 32 0) (List.replicate 12 0) [1] []))
      none = .err (.DecryptionFailed "aead::Error") :=
  claim8_wrong_key_decrypt_fails (List.replicate 32 0)
    (1 :: List.replicate 31 0) [1] (List.replicate 12 0) none _
    (by decide) (by decide) (by decide) (by decide) (by decide) (by decide)
    (by decide) rfl

/-- C9: passing `none` as associated data is interchangeable with passing
`some []`: both `encrypt` and `decrypt` substitute the empty byte string, so
the two encrypt calls produce identical blobs, and a blob produced under
either form of the empty associated data decrypts under the other. -/
theorem claim9_none_empty_aad_equivalent (key pt nonce : Bytes) (c : List Char)
    (hk : ∀ x ∈ key, x < 256) (hnl : nonce.length = NONCE_SIZE)
    (hn : ∀ x ∈ nonce, x < 256) (hp : ∀ x ∈ pt, x < 256) :
    (AesGcmSystem.encrypt key pt none (.ok nonce) =
      AesGcmSystem.encrypt key pt (some []) (.ok nonce)) ∧
    (AesGcmSystem.encrypt key pt none (.ok nonce) = .ok c →
      AesGcmSystem.decrypt key c (some []) = .ok pt) ∧
    (AesGcmSystem.encrypt key pt (some []) (.ok nonce) = .ok c →
      AesGcmSystem.decrypt key c none = .ok pt) := by
  refine ⟨rfl, ?_, ?_⟩
  · intro henc
    obtain ⟨hkl, hc⟩ := encrypt_ok_inv key pt none nonce c henc
    subst hc
    exact decrypt_encode_core key nonce pt (some []) hkl hnl hk hn hp (by simp)
  · intro henc
    obtain ⟨hkl, hc⟩ := encrypt_ok_inv key pt (some []) nonce c henc
    subst hc
    exact decrypt_encode_core key nonce pt none hkl hnl hk hn hp (by simp)

theorem claim9_witness :
    AesGcmSystem.decrypt (List.replicate 32 0)
      (b64Encode (List.replicate 12 0 ++
        aeadEncrypt (List.replicate 32 0) (List.replicate 12 0) [2, 3] []))
      (some []) = .ok [2, 3] :=
  (claim9_none_empty_aad_equivalent (List.replicate 32 0) [2, 3]
    (List.replicate 12 0)
    (b64Encode (List.replicate 12 0 ++
      aeadEncrypt (List.replicate 32 0) (List.replicate 12 0) [2, 3] []))
    (by decide) (by decide) (by decide) (by decide)).2.1 rfl

/-- C10 (amended): for every key of exactly `KEY_SIZE` bytes, `decrypt` is
total: on every input string and associated data it returns `Ok` or an error
value — the explicit length guard covers the split of the decoded data into
nonce and ciphertext.  (For keys of other lengths `Key::from_slice` panics,
which is what the counterexample records.) -/
theorem claim10_decrypt_total_for_valid_keys (key : Bytes) (s : List Char)
    (aad? : Option Bytes) (hkl : key.length = KEY_SIZE) :
    (∃ v, AesGcmSystem.decrypt key s aad? = .ok v) ∨
    (∃ e, AesGcmSystem.decrypt key s aad? = .err e) := by
  unfold AesGcmSystem.decrypt AesGcmSystem.decryptWith
  rw [if_pos hkl]
  rcases hdec : b64Decode s with e' | d
  · simp only [hdec]
    exact Or.inr ⟨_, rfl⟩
  · simp only [hdec]
    by_cases hlen : d.length < NONCE_SIZE
    · rw [if_pos hlen]
      exact Or.inr ⟨_, rfl⟩
    · rw [if_neg hlen]
      rcases haead : aeadDecrypt key (d.take NONCE_SIZE) (d.drop NONCE_SIZE)
          (aad?.getD []) with - | pt
      · simp only [haead]
        exact Or.inr ⟨_, rfl⟩
      · simp only [haead]
        exact Or.inl ⟨_, rfl⟩

theorem claim10_witness :
    (∃ v, AesGcmSystem.decrypt (List.replicate 32 0) [] none = .ok v) ∨
    (∃ e, AesGcmSystem.decrypt (List.replicate 32 0) [] none = .err e) :=
  claim10_decrypt_total_for_valid_keys (List.replicate 32 0) [] none (by decide)

/-- C10 counterexample: with an empty key (reachable through the derived
`Deserialize` of `AesGcmKey`), `decrypt` panics in `Key::from_slice` instead
of returning `Ok` or an error value. -/
theorem claim10_counterexample :
    AesGcmSystem.decrypt [] [] none = .panicked ∧
    isOkOrErrOutcome (AesGcmSystem.decrypt [] [] none) = false :=
  ⟨rfl, rfl⟩

end SealKit
